import Mathlib

/-!
# barbersite: booking wizard, availability window and dashboard aggregates

A shallow embedding of `src/app/src/app.jsx`.

* The JavaScript `Date` built-in is embedded from the ECMAScript specification.
  A `Date` object is its time value in milliseconds since the epoch, or NaN
  (`none`).  The calendar functions (`DayFromYear`, `YearFromTime`,
  `MonthFromTime`, `DateFromTime`, `WeekDay`, `MakeDay`, `DateString`) are
  written on day numbers `Day(t)`; the time zone of the host is a parameter.
  The clock is a parameter too: every `new Date()` is a read of its own.
* React state (`useState` cells of `App`) is an explicit record `AppState`;
  every event handler is a function on that record, and the calls of `addDoc`
  are collected in an explicit log.
-/

namespace Barbersite

/-! ## ECMAScript day arithmetic used by `Date` -/

/-- ECMAScript `DaysInYear(y)`. -/
def DaysInYear (y : Int) : Int :=
  if y % 4 ≠ 0 then 365
  else if y % 100 ≠ 0 then 366
  else if y % 400 ≠ 0 then 365
  else 366

/-- ECMAScript `DayFromYear(y)`: day number of 1 January of year `y`. -/
def DayFromYear (y : Int) : Int :=
  365 * (y - 1970) + (y - 1969) / 4 - (y - 1901) / 100 + (y - 1601) / 400

/-- ECMAScript `YearFromTime`: the largest `y` with `DayFromYear y ≤ t`.
Computed from the estimate `1970 + ⌊400 t / 146097⌋`, which is off by at most
one year (see `YearFromTime_spec`). -/
def YearFromTime (t : Int) : Int :=
  let y0 := 1970 + (400 * t) / 146097
  if t < DayFromYear y0 then y0 - 1
  else if DayFromYear (y0 + 1) ≤ t then y0 + 1
  else y0

/-- ECMAScript `InLeapYear(t)`: 1 in a leap year, 0 otherwise. -/
def InLeapYear (t : Int) : Int :=
  if DaysInYear (YearFromTime t) = 366 then 1 else 0

/-- ECMAScript `DayWithinYear(t)`. -/
def DayWithinYear (t : Int) : Int :=
  t - DayFromYear (YearFromTime t)

/-- ECMAScript `MonthFromTime(t)`, 0 = January .. 11 = December. -/
def MonthFromTime (t : Int) : Int :=
  let d := DayWithinYear t
  let l := InLeapYear t
  if d < 31 then 0
  else if d < 59 + l then 1
  else if d < 90 + l then 2
  else if d < 120 + l then 3
  else if d < 151 + l then 4
  else if d < 181 + l then 5
  else if d < 212 + l then 6
  else if d < 243 + l then 7
  else if d < 273 + l then 8
  else if d < 304 + l then 9
  else if d < 334 + l then 10
  else 11

/-- ECMAScript `DateFromTime(t)`: the day of the month, 1 .. 31. -/
def DateFromTime (t : Int) : Int :=
  let d := DayWithinYear t
  let l := InLeapYear t
  let m := MonthFromTime t
  if m = 0 then d + 1
  else if m = 1 then d - 30
  else if m = 2 then d - 58 - l
  else if m = 3 then d - 89 - l
  else if m = 4 then d - 119 - l
  else if m = 5 then d - 150 - l
  else if m = 6 then d - 180 - l
  else if m = 7 then d - 211 - l
  else if m = 8 then d - 242 - l
  else if m = 9 then d - 272 - l
  else if m = 10 then d - 303 - l
  else d - 333 - l

/-- ECMAScript `WeekDay(t)`, 0 = Sunday .. 6 = Saturday. -/
def WeekDay (t : Int) : Int := (t + 4) % 7

/-- Day offset of the first day of month `m` (0-based) inside a year whose
leap flag is `l`; the table behind `MonthFromTime`. -/
def monthStart (m l : Int) : Int :=
  if m = 0 then 0
  else if m = 1 then 31
  else if m = 2 then 59 + l
  else if m = 3 then 90 + l
  else if m = 4 then 120 + l
  else if m = 5 then 151 + l
  else if m = 6 then 181 + l
  else if m = 7 then 212 + l
  else if m = 8 then 243 + l
  else if m = 9 then 273 + l
  else if m = 10 then 304 + l
  else 334 + l

/-- ECMAScript `MakeDay(year, month, date)`: the day number of the first day
of month `month` of `year` (months beyond 11 carry into the year), plus
`date - 1`. -/
def MakeDay (year month date : Int) : Int :=
  let ym := year + month / 12
  let mn := month % 12
  DayFromYear ym + monthStart mn (if DaysInYear ym = 366 then 1 else 0) + date - 1

/-- Three-letter weekday names of `Date.prototype.toDateString` and of
`toLocaleDateString('en-US', { weekday: 'short' })`. -/
def weekdayName (w : Int) : String :=
  if w = 0 then "Sun"
  else if w = 1 then "Mon"
  else if w = 2 then "Tue"
  else if w = 3 then "Wed"
  else if w = 4 then "Thu"
  else if w = 5 then "Fri"
  else "Sat"

/-- Three-letter month names of `Date.prototype.toDateString` and of
`toLocaleDateString('en-US', { month: 'short' })`. -/
def monthName (m : Int) : String :=
  if m = 0 then "Jan"
  else if m = 1 then "Feb"
  else if m = 2 then "Mar"
  else if m = 3 then "Apr"
  else if m = 4 then "May"
  else if m = 5 then "Jun"
  else if m = 6 then "Jul"
  else if m = 7 then "Aug"
  else if m = 8 then "Sep"
  else if m = 9 then "Oct"
  else if m = 10 then "Nov"
  else "Dec"

/-- ECMAScript `ToZeroPaddedDecimalString(n, minLength)`: the decimal digits
of `n`, padded on the left with `0` up to `minLength` characters. -/
def ToZeroPaddedDecimalString (n minLength : Nat) : String :=
  let s := Nat.repr n
  String.mk (List.replicate (minLength - s.length) '0') ++ s

/-- ECMAScript `DateString(tv)`, on the day number of `tv`: weekday, month,
two-digit day, year with at least four digits. -/
def DateString (t : Int) : String :=
  let y := YearFromTime t
  weekdayName (WeekDay t) ++ " " ++ monthName (MonthFromTime t) ++ " "
    ++ ToZeroPaddedDecimalString (DateFromTime t).toNat 2 ++ " "
    ++ (if y < 0 then "-" else "") ++ ToZeroPaddedDecimalString y.natAbs 4


/-- The calendar date of a day number: year, month (0-based), day of month. -/
def civil (t : Int) : Int × Int × Int :=
  (YearFromTime t, MonthFromTime t, DateFromTime t)

/-- Number of days of month `m` (0-based) in year `y`. -/
def daysInMonth (y m : Int) : Int :=
  if m = 1 then (if DaysInYear y = 366 then 29 else 28)
  else if m = 3 ∨ m = 5 ∨ m = 8 ∨ m = 10 then 30
  else 31

/-- The calendar date following a calendar date: the next day of the month,
else the first of the next month, else 1 January of the next year. -/
def nextDay (c : Int × Int × Int) : Int × Int × Int :=
  let (y, m, d) := c
  if d < daysInMonth y m then (y, m, d + 1)
  else if m < 11 then (y, m + 1, 1)
  else (y + 1, 0, 1)

/-! ## Time values, time zone and the methods of `Date` -/

/-- ECMAScript `msPerDay`. -/
def msPerDay : Int := 86400000

/-- ECMAScript `Day(t)`: the day number of a time value. -/
def Day (t : Int) : Int := t / msPerDay

/-- ECMAScript `TimeWithinDay(t)`. -/
def TimeWithinDay (t : Int) : Int := t % msPerDay

/-- ECMAScript `MakeDate(day, time)`. -/
def MakeDate (day time : Int) : Int := day * msPerDay + time

/-- ECMAScript `TimeClip(time)`: NaN, here `none`, beyond 8.64e15 milliseconds
on either side of the epoch. -/
def TimeClip (time : Int) : Option Int :=
  if time.natAbs > 8640000000000000 then none else some time

/-- The time zone of the host, as the two offsets the ECMAScript specification
asks of it: `LocalTZA(t, true)` for a UTC time value and `LocalTZA(t, false)`
for a local time value, in milliseconds. -/
structure TimeZone where
  offsetOfUTC : Int → Int
  offsetOfLocal : Int → Int

/-- ECMAScript `LocalTime(t)`. -/
def LocalTime (tz : TimeZone) (t : Int) : Int := t + tz.offsetOfUTC t

/-- ECMAScript `UTC(t)`. -/
def UTC (tz : TimeZone) (t : Int) : Int := t - tz.offsetOfLocal t

/-- A `Date` object: its time value, or `none` for NaN (an invalid date). -/
abbrev JSDate := Option Int

/-- The method `Date.prototype.getDate`: NaN on an invalid date, else
`DateFromTime(LocalTime(t))`. -/
def getDate (tz : TimeZone) (date : JSDate) : Option Int :=
  match date with
  | none => none
  | some t => some (DateFromTime (Day (LocalTime tz t)))

/-- The method `Date.prototype.setDate(dt)`, returning the object after the
call: an invalid date stays invalid, a NaN argument makes the date invalid,
else the day of the month is replaced inside the local month the object lies
in, the local time of day is kept, and the result goes through `UTC` and
`TimeClip`. -/
def setDate (tz : TimeZone) (date : JSDate) (dt : Option Int) : JSDate :=
  match date with
  | none => none
  | some t =>
    match dt with
    | none => none
    | some dt =>
      let t := LocalTime tz t
      let newDate :=
        MakeDate (MakeDay (YearFromTime (Day t)) (MonthFromTime (Day t)) dt) (TimeWithinDay t)
      TimeClip (UTC tz newDate)

/-- The method `Date.prototype.toDateString`. -/
def toDateString (tz : TimeZone) (date : JSDate) : String :=
  match date with
  | none => "Invalid Date"
  | some tv => DateString (Day (LocalTime tz tv))

/-- The call `toLocaleDateString('en-US', { weekday: 'short' })`. -/
def toLocaleWeekday (tz : TimeZone) (date : JSDate) : String :=
  match date with
  | none => "Invalid Date"
  | some tv => weekdayName (WeekDay (Day (LocalTime tz tv)))

/-- The call `toLocaleDateString('en-US', { month: 'short' })`. -/
def toLocaleMonth (tz : TimeZone) (date : JSDate) : String :=
  match date with
  | none => "Invalid Date"
  | some tv => monthName (MonthFromTime (Day (LocalTime tz tv)))

/-- What one call of `getAvailableDates` gets from its host: the time zone,
the time value read by `new Date()` at line 51, and the time value read by
`new Date()` at line 53 in each round of the loop. -/
structure Clock where
  tz : TimeZone
  today : Int
  loop : Nat → Int

/-! ## Catalog and availability window (`app.jsx` lines 40-64) -/

/-- An entry of `SERVICES`. -/
structure Service where
  id : Nat
  name : String
  duration : String
  price : Int
  deriving DecidableEq, Repr

/-- The constant `SERVICES`. -/
def SERVICES : List Service :=
  [ { id := 1, name := "The Executive Cut", duration := "45 min", price := 35 },
    { id := 2, name := "Beard Maintenance", duration := "20 min", price := 15 },
    { id := 3, name := "Skin Fade", duration := "40 min", price := 30 },
    { id := 4, name := "Hot Towel Shave", duration := "30 min", price := 25 } ]

/-- The constant `TIME_SLOTS`. -/
def TIME_SLOTS : List String :=
  ["09:00", "09:45", "10:30", "11:15", "13:00", "13:45", "14:30", "15:15", "16:00"]

/-- An entry of the list built by `getAvailableDates`. -/
structure CalendarDay where
  full : String
  dayName : String
  dayNum : Option Int
  month : String
  isToday : Bool
  deriving DecidableEq, Repr

/-- The function `getAvailableDates`.  `today` is the `Date` of line 51, `d`
the `Date` that line 53 makes anew in each round and line 54 moves with
`setDate`; the loop `for (let i = 0; i < 21; i++)` pushes one entry per `i`,
in order.  `dayNum` is the number `d.getDate()`, `none` when it is NaN. -/
def getAvailableDates (clock : Clock) : List CalendarDay :=
  let today : JSDate := some clock.today
  (List.range 21).map fun (i : Nat) =>
    let d : JSDate :=
      setDate clock.tz (some (clock.loop i)) ((getDate clock.tz today).map (fun n => n + (i : Int)))
    { full := toDateString clock.tz d
      dayName := toLocaleWeekday clock.tz d
      dayNum := getDate clock.tz d
      month := toLocaleMonth clock.tz d
      isToday := toDateString clock.tz d == toDateString clock.tz today }

/-! ## State of `App` (`app.jsx` lines 66-80) -/

/-- The signed-in principal handed over by `onAuthStateChanged`. -/
structure User where
  uid : String
  isAnonymous : Bool
  deriving DecidableEq, Repr

/-- The private profile document of a barber (`barberProfile`). -/
structure BarberProfile where
  uid : String
  name : String
  specialty : String
  email : String
  slug : String
  image : String
  deriving DecidableEq, Repr

/-- The public document of a barber (`barberData`). -/
structure BarberData where
  name : String
  specialty : String
  bio : String
  location : String
  image : String
  notionWebhook : Option String
  deriving DecidableEq, Repr

/-- The cell `view`. -/
inductive View where
  | clientBooking
  | barberLogin
  | barberDashboard
  deriving DecidableEq, Repr

/-- The cell `bookingData`: the draft of the wizard. -/
structure BookingData where
  service : Option Service
  date : Option CalendarDay
  time : Option String
  name : String
  phone : String
  deriving DecidableEq, Repr

/-- The object `newBooking` that `handleBooking` hands to `addDoc`.  `service`
and `time` are read from the draft as they are, so they may be `null`. -/
structure NewBooking where
  barberId : String
  service : Option Service
  time : Option String
  date : String
  name : String
  phone : String
  createdAt : String
  deriving DecidableEq, Repr

/-- A document of the bookings feed as the dashboard reads it: the document id
and the fields `barberId`, `service` (with its `price`), `time`, `date`,
`name`. -/
structure Booking where
  id : String
  barberId : String
  service : Service
  time : String
  date : String
  name : String
  deriving DecidableEq, Repr

/-- The `useState` cells of `App` that the booking page, the navbar and the
dashboard read or write.  (`loginForm` and `isRegistering` belong to the login
form only and are left out.) -/
structure AppState where
  user : Option User
  barberProfile : Option BarberProfile
  view : View
  activeBarberId : String
  barberData : Option BarberData
  allBookings : List Booking
  step : Nat
  bookingData : BookingData
  error : String
  deriving DecidableEq, Repr

/-- The initial values of the cells. -/
def initialState : AppState :=
  { user := none
    barberProfile := none
    view := View.clientBooking
    activeBarberId := "evan"
    barberData := none
    allBookings := []
    step := 2
    bookingData := { service := none, date := none, time := none, name := "", phone := "" }
    error := "" }

/-- The placeholder set by the `else` branch of the `getDoc(barberRef)`
callback. -/
def fallbackBarberData : BarberData :=
  { name := "Evan Styles"
    specialty := "Modern Fades"
    bio := "Precision grooming specialist."
    location := "South William St, Dublin"
    image := "https://images.unsplash.com/photo-1503443207922-dff7d543fd0e?w=400&h=400&fit=crop"
    notionWebhook := none }

/-! ## Handlers -/

/-- Whether the wizard is on screen: `App` renders `<BarberBookingPage />`
when `view === 'client-booking'`, and that component returns the loading text
instead of the wizard while `barberData` is `null`. -/
def wizardShown (st : AppState) : Bool :=
  st.view == View.clientBooking && st.barberData.isSome

/-- The `onClick` of a service button (line 253). -/
def selectService (st : AppState) (s : Service) : AppState :=
  { st with bookingData := { st.bookingData with service := some s }, step := 3 }

/-- The `onClick` of a date button (line 274). -/
def selectDate (st : AppState) (d : CalendarDay) : AppState :=
  { st with bookingData := { st.bookingData with date := some d }, step := 4 }

/-- The `onClick` of a time button (line 298). -/
def selectTime (st : AppState) (t : String) : AppState :=
  { st with bookingData := { st.bookingData with time := some t }, step := 5 }

/-- The `onChange` of the name input (line 315). -/
def changeName (st : AppState) (v : String) : AppState :=
  { st with bookingData := { st.bookingData with name := v } }

/-- The `onChange` of the phone input (line 316). -/
def changePhone (st : AppState) (v : String) : AppState :=
  { st with bookingData := { st.bookingData with phone := v } }

/-- The `onClick` of "Back to services" (line 285): `setStep(2)`. -/
def backToServices (st : AppState) : AppState := { st with step := 2 }

/-- The `onClick` of "Back to dates" (line 305): `setStep(3)`. -/
def backToDates (st : AppState) : AppState := { st with step := 3 }

/-- The `onClick` of "Book another session" (line 329): `setStep(2)`. -/
def bookAnother (st : AppState) : AppState := { st with step := 2 }

/-- The `onClick` of the navbar logo (line 204):
`setView('client-booking'); setStep(2)`. -/
def navbarHome (st : AppState) : AppState :=
  { st with view := View.clientBooking, step := 2 }

/-- The attribute `disabled={!bookingData.name || !bookingData.phone}` of the
confirm button (line 318). -/
def confirmDisabled (st : AppState) : Bool :=
  st.bookingData.name == "" || st.bookingData.phone == ""

/-- The handler `handleBooking` up to `await addDoc(...)`: the object handed to `addDoc`,
or `none` when no call is made: `if (!user) return;`, or the read of
`bookingData.date.full` throws on a `null` date before the `try` block. -/
def handleBookingRequest (st : AppState) (createdAt : String) : Option NewBooking :=
  match st.user with
  | none => none
  | some _ =>
    match st.bookingData.date with
    | none => none
    | some d =>
      some { barberId := st.activeBarberId
             service := st.bookingData.service
             time := st.bookingData.time
             date := d.full
             name := st.bookingData.name
             phone := st.bookingData.phone
             createdAt := createdAt }

/-- The handler `handleBooking` after `await addDoc(...)`: `setStep(6)` when the promise
resolves, `setError("Failed to save booking.")` when it rejects. -/
def handleBookingSettle (st : AppState) (ok : Bool) : AppState :=
  if ok then { st with step := 6 } else { st with error := "Failed to save booking." }

/-- A click on the confirm button: the button exists on the wizard at step 5
and triggers `handleBooking` unless it is disabled.  The result is the call of
`addDoc` that the click issues, if any. -/
def confirmClick (st : AppState) (createdAt : String) : Option NewBooking :=
  if wizardShown st && st.step == 5 && !confirmDisabled st then
    handleBookingRequest st createdAt
  else none

/-- A whole submit: the click on the confirm button, and the outcome `ok` of
the `addDoc` call it issues.  Returns the new state and the calls of `addDoc`
issued. -/
def submit (st : AppState) (createdAt : String) (ok : Bool) : AppState × List NewBooking :=
  match confirmClick st createdAt with
  | none => (st, [])
  | some b => (handleBookingSettle st ok, [b])

/-- The callback of `getDoc(barberRef)` (lines 107-119). -/
def onBarberDoc (st : AppState) (docSnap : Option BarberData) : AppState :=
  match docSnap with
  | some data => { st with barberData := some data }
  | none => { st with barberData := some fallbackBarberData }

/-- The handler `handleSignOut`; the auth collaborator reports the sign-out
through `onAuthStateChanged` later. -/
def handleSignOut (st : AppState) : AppState :=
  { st with barberProfile := none, view := View.clientBooking }

/-- Outcome of `handleAuthAction`. -/
inductive AuthOutcome where
  | registered (profile : BarberProfile)
  | signedIn
  | failed (message : String)
  deriving DecidableEq, Repr

/-- The handler `handleAuthAction`, given how its awaited calls end. -/
def handleAuthAction (st : AppState) : AuthOutcome → AppState
  | AuthOutcome.registered profile =>
    { st with error := "", barberProfile := some profile, view := View.barberDashboard }
  | AuthOutcome.signedIn => { st with error := "", view := View.barberDashboard }
  | AuthOutcome.failed message => { st with error := message }

/-! ## Events -/

/-- What can happen to a running `App`: the clicks and inputs of the wizard,
the navbar, and the callbacks of the auth and store collaborators. -/
inductive Event where
  | clickService (s : Service)
  | clickDate (clock : Clock) (i : Nat)
  | clickTime (t : String)
  | typeName (v : String)
  | typePhone (v : String)
  | clickBackToServices
  | clickBackToDates
  | clickConfirm (createdAt : String)
  | addDocSettled (ok : Bool)
  | clickBookAnother
  | clickLogo
  | clickStaff
  | clickDashboard
  | clickExit
  | submitAuthForm (outcome : AuthOutcome)
  | authStateChanged (u : Option User)
  | barberDocLoaded (docSnap : Option BarberData)
  | profileLoaded (profile : BarberProfile)
  | bookingsSnapshot (docs : List Booking)

/-- The running application: the cells of `App`, the calls of `addDoc` issued
so far (oldest first), and how many of them have not settled yet. -/
structure World where
  app : AppState
  writes : List NewBooking
  pending : Nat
  deriving DecidableEq, Repr

/-- The application at start. -/
def World.init : World := { app := initialState, writes := [], pending := 0 }

/-- One event.  A click is possible only on an element that is rendered: the
wizard shows the buttons of the current step only, the service buttons are
those of `SERVICES`, the date buttons those of the call of
`getAvailableDates()` of the render, the time buttons those of `TIME_SLOTS`.  An event that is
not possible leaves the application as it is. -/
def World.step (w : World) : Event → World
  | Event.clickService s =>
    if wizardShown w.app && w.app.step == 2 && decide (s ∈ SERVICES) then
      { w with app := selectService w.app s }
    else w
  | Event.clickDate clock i =>
    if wizardShown w.app && w.app.step == 3 then
      match (getAvailableDates clock)[i]? with
      | some d => { w with app := selectDate w.app d }
      | none => w
    else w
  | Event.clickTime t =>
    if wizardShown w.app && w.app.step == 4 && decide (t ∈ TIME_SLOTS) then
      { w with app := selectTime w.app t }
    else w
  | Event.typeName v =>
    if wizardShown w.app && w.app.step == 5 then { w with app := changeName w.app v } else w
  | Event.typePhone v =>
    if wizardShown w.app && w.app.step == 5 then { w with app := changePhone w.app v } else w
  | Event.clickBackToServices =>
    if wizardShown w.app && w.app.step == 3 then { w with app := backToServices w.app } else w
  | Event.clickBackToDates =>
    if wizardShown w.app && w.app.step == 4 then { w with app := backToDates w.app } else w
  | Event.clickConfirm createdAt =>
    match confirmClick w.app createdAt with
    | some b => { w with writes := w.writes ++ [b], pending := w.pending + 1 }
    | none => w
  | Event.addDocSettled ok =>
    if w.pending = 0 then w
    else { w with app := handleBookingSettle w.app ok, pending := w.pending - 1 }
  | Event.clickBookAnother =>
    if wizardShown w.app && w.app.step == 6 then { w with app := bookAnother w.app } else w
  | Event.clickLogo => { w with app := navbarHome w.app }
  | Event.clickStaff =>
    if w.app.barberProfile.isNone then { w with app := { w.app with view := View.barberLogin } }
    else w
  | Event.clickDashboard =>
    if w.app.barberProfile.isSome then
      { w with app := { w.app with view := View.barberDashboard } }
    else w
  | Event.clickExit =>
    if w.app.view == View.barberDashboard then { w with app := handleSignOut w.app } else w
  | Event.submitAuthForm outcome =>
    if w.app.view == View.barberLogin then { w with app := handleAuthAction w.app outcome }
    else w
  | Event.authStateChanged u => { w with app := { w.app with user := u } }
  | Event.barberDocLoaded docSnap => { w with app := onBarberDoc w.app docSnap }
  | Event.profileLoaded profile =>
    { w with app := { w.app with barberProfile := some profile } }
  | Event.bookingsSnapshot docs => { w with app := { w.app with allBookings := docs } }

/-- A sequence of events, from the left. -/
def World.run (w : World) (es : List Event) : World := es.foldl World.step w

/-! ## JavaScript numbers that hold integers -/

/-- The number of low bits that `n` has beyond 53 bits, by halving; the second
argument bounds the number of halvings and `n` itself is always enough. -/
def excessBits (n : Nat) : Nat → Nat
  | 0 => 0
  | fuel + 1 => if n < 2 ^ 53 then 0 else excessBits (n / 2) fuel + 1

/-- The double nearest to an integer, as an integer: IEEE 754 binary64
rounding to nearest, ties to even, of the 53 leading bits, before the range of
the exponent is looked at. -/
def roundToDouble (x : Int) : Int :=
  let n := x.natAbs
  let k := excessBits n n
  let q := n / 2 ^ k
  let r := n % 2 ^ k
  let up := if 2 * r > 2 ^ k ∨ (2 * r = 2 ^ k ∧ q % 2 = 1) then q + 1 else q
  x.sign * ((up * 2 ^ k : Nat) : Int)

/-- The operator `+` of JavaScript on two numbers that hold integers: the
exact sum rounded to a double; `none` stands for a result that is not finite
(the rounded sum reaches 2^1024 and becomes an infinity). -/
def jsAdd (a b : Int) : Option Int :=
  let r := roundToDouble (a + b)
  if r.natAbs < 2 ^ 1024 then some r else none

/-! ## Dashboard (`app.jsx` lines 366-368) -/

/-- The expression `barberProfile?.uid || activeBarberId`. -/
def dashboardBarberId (st : AppState) : String :=
  match st.barberProfile with
  | some p => if p.uid ≠ "" then p.uid else st.activeBarberId
  | none => st.activeBarberId

/-- What `Dashboard` computes and shows; `totalRevenue` is `none` when the
number shown is not finite. -/
structure DashboardView where
  myBookings : List Booking
  totalRevenue : Option Int
  count : Nat
  deriving DecidableEq, Repr

/-- The first two lines of `Dashboard`, and `myBookings.length` as shown in
the "Bookings" card.  The accumulator of `reduce` is a JavaScript number:
`some` of an integer, or `none` once it is not finite (an infinity or NaN
stays so under `+`). -/
def Dashboard (st : AppState) : DashboardView :=
  let myBookings := st.allBookings.filter (fun b => b.barberId == dashboardBarberId st)
  let totalRevenue :=
    myBookings.foldl (fun acc curr => acc.bind (fun a => jsAdd a curr.service.price)) (some 0)
  { myBookings := myBookings, totalRevenue := totalRevenue, count := myBookings.length }

/-- Reads a month name back to its number (used to show that `monthName` is
injective on 0 .. 11). -/
def monthIndex (s : String) : Int :=
  if s = "Jan" then 0 else if s = "Feb" then 1 else if s = "Mar" then 2
  else if s = "Apr" then 3 else if s = "May" then 4 else if s = "Jun" then 5
  else if s = "Jul" then 6 else if s = "Aug" then 7 else if s = "Sep" then 8
  else if s = "Oct" then 9 else if s = "Nov" then 10 else 11

/-- Reads a decimal numeral back to its number. -/
def decimalValue (cs : List Char) : Nat :=
  cs.foldl (fun acc c => 10 * acc + (c.toNat - 48)) 0

/-- The gating condition of the wizard on a state: what the draft must hold
at each step. -/
def Gated (st : AppState) : Prop :=
  (3 ≤ st.step → st.bookingData.service ≠ none) ∧
  (4 ≤ st.step → st.bookingData.service ≠ none ∧ st.bookingData.date ≠ none) ∧
  (5 ≤ st.step → st.bookingData.service ≠ none ∧ st.bookingData.date ≠ none ∧
    st.bookingData.time ≠ none)

/-- The inductive strengthening of `Gated`: a call of `addDoc` that has not
settled was issued from step 5, hence with a full draft. -/
def WorldInv (w : World) : Prop :=
  Gated w.app ∧
  (0 < w.pending → w.app.bookingData.service ≠ none ∧ w.app.bookingData.date ≠ none ∧
    w.app.bookingData.time ≠ none)

/-- The draft a wizard starts with: nothing chosen, empty name and phone. -/
def emptyDraft : BookingData :=
  { service := none, date := none, time := none, name := "", phone := "" }

/-- The time zone UTC. -/
def utcZone : TimeZone := { offsetOfUTC := fun _ => 0, offsetOfLocal := fun _ => 0 }

/-- A host in UTC whose clock stands at 2024-01-01T09:00:00.000Z during the
call. -/
def scenarioClock : Clock :=
  { tz := utcZone, today := 1704099600000, loop := fun _ => 1704099600000 }

/-- Scenario A of the specification as events: sign-in, the barber document is
not found, service 2 (price 15), the first date of the window of
1 January 2024, time 09:45, name and phone, confirm, and `addDoc` resolves. -/
def scenarioA : List Event :=
  [ Event.authStateChanged (some { uid := "anon-1", isAnonymous := true }),
    Event.barberDocLoaded none,
    Event.clickService { id := 2, name := "Beard Maintenance", duration := "20 min", price := 15 },
    Event.clickDate scenarioClock 0,
    Event.clickTime "09:45",
    Event.typeName "Sam Doe",
    Event.typePhone "0850000000",
    Event.clickConfirm "2024-01-01T09:00:00.000Z",
    Event.addDocSettled true ]

/-- The state of scenario A just before the confirm button is clicked. -/
def detailsState : AppState := (World.init.run (scenarioA.take 7)).app

/-- The date entry of scenario A: the first entry of the window of
1 January 2024. -/
def scenarioDay : CalendarDay :=
  { full := "Mon Jan 01 2024", dayName := "Mon", dayNum := some 1, month := "Jan",
    isToday := true }

/-- Scenario D of the specification: a feed with reservations of the providers
"evan" and "maria", shown to the dashboard of "evan". -/
def scenarioD : AppState :=
  { initialState with
    allBookings :=
      [ { id := "r1", barberId := "evan", time := "09:45", date := "Mon Jan 01 2024",
          name := "Sam Doe",
          service := { id := 2, name := "Beard Maintenance", duration := "20 min", price := 15 } },
        { id := "r2", barberId := "maria", time := "10:30", date := "Mon Jan 01 2024",
          name := "Ann Roe",
          service := { id := 1, name := "The Executive Cut", duration := "45 min", price := 35 } },
        { id := "r3", barberId := "evan", time := "09:00", date := "Tue Jan 02 2024",
          name := "Bob Poe",
          service := { id := 3, name := "Skin Fade", duration := "40 min", price := 30 } } ] }

/-- The feed of scenario D after the catalog has changed: the same
reservations, whose stored services now carry other ids and names. -/
def scenarioDRenamed : AppState :=
  { initialState with
    allBookings :=
      [ { id := "r1", barberId := "evan", time := "09:45", date := "Mon Jan 01 2024",
          name := "Sam Doe",
          service := { id := 7, name := "Beard Trim", duration := "25 min", price := 15 } },
        { id := "r2", barberId := "maria", time := "10:30", date := "Mon Jan 01 2024",
          name := "Ann Roe",
          service := { id := 1, name := "The Executive Cut", duration := "45 min", price := 35 } },
        { id := "r3", barberId := "evan", time := "09:00", date := "Tue Jan 02 2024",
          name := "Bob Poe",
          service := { id := 9, name := "Fade", duration := "40 min", price := 30 } } ] }

/-- What `BarberBookingPage` returns (lines 223-333): the text
"Loading Barber..." alone, or the profile header with the part of the wizard
that belongs to the current step. -/
inductive BookingPageView where
  | loading
  | wizard (profile : BarberData) (step : Nat)
  deriving DecidableEq, Repr

/-- The component `BarberBookingPage`: `if (!barberData) return <div>Loading
Barber...</div>`, otherwise the header of `barberData` and the blocks guarded
by `step === 2` .. `step === 6`. -/
def BarberBookingPage (st : AppState) : BookingPageView :=
  match st.barberData with
  | none => BookingPageView.loading
  | some profile => BookingPageView.wizard profile st.step

/-- The lookup of lines 106-119: `getDoc` on the document of `activeBarberId`
in the collection `barbers` (a document exists or not), then the callback
`onBarberDoc` on its answer. -/
def fetchBarberData (barbers : String → Option BarberData) (st : AppState) : AppState :=
  onBarberDoc st (barbers st.activeBarberId)

/-- A collection `barbers` without any document. -/
def emptyBarbers : String → Option BarberData := fun _ => none

/-- A stored public profile, used as an example of a document that exists. -/
def mariaData : BarberData :=
  { name := "Maria Cuts"
    specialty := "Classic Scissor Work"
    bio := "Fifteen years behind the chair."
    location := "Capel St, Dublin"
    image := "https://example.org/maria.jpg"
    notionWebhook := none }

/-- A collection `barbers` holding the one document "maria". -/
def mariaBarbers : String → Option BarberData :=
  fun id => if id = "maria" then some mariaData else none

/-- The local day of the `Date` of line 51. -/
def localToday (clock : Clock) : Int := Day (LocalTime clock.tz clock.today)

/-- The local time value that round `i` of the loop hands to `UTC`: `i` days
after the local day of `today`, at the local time of day of the read of that
round. -/
def windowTarget (clock : Clock) (i : Nat) : Int :=
  MakeDate (localToday clock + i) (TimeWithinDay (LocalTime clock.tz (clock.loop i)))

/-- Every read of the clock in the loop falls on the local day of `today`. -/
def SameDayReads (clock : Clock) : Prop :=
  ∀ i : Nat, i < 21 → Day (LocalTime clock.tz (clock.loop i)) = localToday clock

/-- The 21 days of the window lie inside the range of time values. -/
def WindowInRange (clock : Clock) : Prop :=
  ∀ i : Nat, i < 21 → (UTC clock.tz (windowTarget clock i)).natAbs ≤ 8640000000000000

/-- The time zone has each local day of the window: a local time of that day,
taken to UTC and back, is still on that day (no local day is skipped). -/
def WindowDaysExist (clock : Clock) : Prop :=
  ∀ i : Nat, i < 21 →
    Day (LocalTime clock.tz (UTC clock.tz (windowTarget clock i))) = Day (windowTarget clock i)

/-- A host in UTC whose clock passes midnight at the end of January during the
call: `today` is read at 2024-01-31T23:59:59.999Z, the loop reads at
2024-02-01T00:00:00.000Z. -/
def midnightClock : Clock :=
  { tz := utcZone, today := 1706745599999, loop := fun _ => 1706745600000 }

/-- A host in UTC whose clock stands at the last time value,
8.64e15 milliseconds after the epoch. -/
def limitClock : Clock :=
  { tz := utcZone, today := 8640000000000000, loop := fun _ => 8640000000000000 }

/-- The time zone Pacific/Apia around the end of 2011: ten hours behind UTC
until 2011-12-30T10:00:00Z, fourteen hours ahead from then on, so that the
local day 30 December 2011 does not exist; a local time inside the gap is read
with the offset before the change. -/
def apiaZone : TimeZone :=
  { offsetOfUTC := fun t => if t < 1325239200000 then -36000000 else 50400000
    offsetOfLocal := fun t => if t < 1325289600000 then -36000000 else 50400000 }

/-- A host in Pacific/Apia whose clock stands at 2011-12-20T22:00:00Z (noon of
20 December, local time) during the call. -/
def apiaClock : Clock :=
  { tz := apiaZone, today := 1324418400000, loop := fun _ => 1324418400000 }

/-- A feed with two reservations of "evan" whose integer prices are 2^53 and
1. -/
def scenarioLargePrices : AppState :=
  { initialState with
    allBookings :=
      [ { id := "r1", barberId := "evan", time := "09:45", date := "Mon Jan 01 2024",
          name := "Sam Doe",
          service := { id := 2, name := "Beard Maintenance", duration := "20 min",
                       price := 9007199254740992 } },
        { id := "r2", barberId := "evan", time := "10:30", date := "Mon Jan 01 2024",
          name := "Ann Roe",
          service := { id := 1, name := "The Executive Cut", duration := "45 min",
                       price := 1 } } ] }

/-! ### Facts about the day arithmetic -/

theorem DayFromYear_succ (y : Int) : DayFromYear (y + 1) = DayFromYear y + DaysInYear y := by
  unfold DayFromYear DaysInYear
  split_ifs <;> omega

theorem DaysInYear_cases (y : Int) : DaysInYear y = 365 ∨ DaysInYear y = 366 := by
  unfold DaysInYear
  split_ifs <;> simp

theorem DayFromYear_add_nat (y : Int) (n : Nat) :
    DayFromYear y + 365 * n ≤ DayFromYear (y + n) := by
  induction n with
  | zero => simp
  | succ k ih =>
    have h := DayFromYear_succ (y + k)
    have hc := DaysInYear_cases (y + k)
    have e : y + ((k + 1 : Nat) : Int) = y + k + 1 := by push_cast; ring
    rw [e, h]
    push_cast
    omega

theorem DayFromYear_mono {a b : Int} (h : a ≤ b) : DayFromYear a ≤ DayFromYear b := by
  obtain ⟨n, rfl⟩ := Int.le.dest h
  have := DayFromYear_add_nat a n
  omega

/-- The computed year is the one the ECMAScript specification asks for. -/
theorem YearFromTime_spec (t : Int) :
    DayFromYear (YearFromTime t) ≤ t ∧ t < DayFromYear (YearFromTime t + 1) := by
  unfold YearFromTime
  dsimp only
  split_ifs with h1 h2
  · refine ⟨?_, by simpa using h1⟩
    unfold DayFromYear at *
    omega
  · refine ⟨h2, ?_⟩
    unfold DayFromYear at *
    omega
  · exact ⟨by omega, by omega⟩

/-- The year of a day number is determined by the ECMAScript condition. -/
theorem YearFromTime_unique {t y : Int} (h1 : DayFromYear y ≤ t)
    (h2 : t < DayFromYear (y + 1)) : YearFromTime t = y := by
  obtain ⟨s1, s2⟩ := YearFromTime_spec t
  by_contra hne
  rcases lt_or_gt_of_ne hne with hlt | hgt
  · have := DayFromYear_mono (show YearFromTime t + 1 ≤ y by omega)
    omega
  · have := DayFromYear_mono (show y + 1 ≤ YearFromTime t by omega)
    omega

theorem InLeapYear_cases (t : Int) : InLeapYear t = 0 ∨ InLeapYear t = 1 := by
  unfold InLeapYear
  split_ifs <;> simp

theorem InLeapYear_eq (t : Int) : DaysInYear (YearFromTime t) = 365 + InLeapYear t := by
  have hc := DaysInYear_cases (YearFromTime t)
  unfold InLeapYear
  split_ifs <;> omega

theorem DayWithinYear_bounds (t : Int) :
    0 ≤ DayWithinYear t ∧ DayWithinYear t < 365 + InLeapYear t := by
  obtain ⟨s1, s2⟩ := YearFromTime_spec t
  rw [DayFromYear_succ, InLeapYear_eq] at s2
  unfold DayWithinYear
  omega

theorem MonthFromTime_bounds (t : Int) : 0 ≤ MonthFromTime t ∧ MonthFromTime t ≤ 11 := by
  unfold MonthFromTime
  dsimp only
  omega

/-- The month found by `MonthFromTime` is the one whose days contain the day
within the year. -/
theorem MonthFromTime_window (t : Int) :
    monthStart (MonthFromTime t) (InLeapYear t) ≤ DayWithinYear t ∧
    DayWithinYear t < monthStart (MonthFromTime t) (InLeapYear t)
      + daysInMonth (YearFromTime t) (MonthFromTime t) := by
  have hb := DayWithinYear_bounds t
  have hl := InLeapYear_cases t
  have he := InLeapYear_eq t
  unfold monthStart daysInMonth MonthFromTime
  dsimp only
  omega

/-- The day of the month counts from the first day of the month. -/
theorem DateFromTime_eq (t : Int) :
    DateFromTime t = DayWithinYear t - monthStart (MonthFromTime t) (InLeapYear t) + 1 := by
  unfold DateFromTime monthStart
  dsimp only
  omega

theorem DateFromTime_bounds (t : Int) :
    1 ≤ DateFromTime t ∧ DateFromTime t ≤ daysInMonth (YearFromTime t) (MonthFromTime t) := by
  have hw := MonthFromTime_window t
  have hd := DateFromTime_eq t
  omega

theorem daysInMonth_le (y m : Int) : daysInMonth y m ≤ 31 := by
  unfold daysInMonth
  omega

/-- Adding `i` to the day of the month inside `MakeDay` moves the day number by
`i`. -/
theorem MakeDay_add (t : Int) (i : Int) :
    MakeDay (YearFromTime t) (MonthFromTime t) (DateFromTime t + i) = t + i := by
  have hm := MonthFromTime_bounds t
  have hd := DateFromTime_eq t
  unfold MakeDay
  dsimp only
  have e1 : MonthFromTime t / 12 = 0 := by omega
  have e2 : MonthFromTime t % 12 = MonthFromTime t := by omega
  rw [e1, e2, add_zero, hd]
  unfold DayWithinYear InLeapYear
  omega

/-- The day number is recovered from the calendar date. -/
theorem day_of_civil (t : Int) :
    t = DayFromYear (YearFromTime t) + monthStart (MonthFromTime t) (InLeapYear t)
      + DateFromTime t - 1 := by
  have hd := DateFromTime_eq t
  unfold DayWithinYear at hd
  omega

/-- Consecutive months tile the year. -/
theorem monthStart_succ (t m : Int) (h0 : 0 ≤ m) (h1 : m ≤ 10) :
    monthStart (m + 1) (InLeapYear t)
      = monthStart m (InLeapYear t) + daysInMonth (YearFromTime t) m := by
  have hl := InLeapYear_cases t
  have he := InLeapYear_eq t
  interval_cases m <;> unfold monthStart daysInMonth <;> omega

/-- A month whose days contain the day within the year is the month of the
day. -/
theorem MonthFromTime_unique (t m : Int) (h0 : 0 ≤ m) (h1 : m ≤ 11)
    (hlo : monthStart m (InLeapYear t) ≤ DayWithinYear t)
    (hhi : DayWithinYear t < monthStart m (InLeapYear t) + daysInMonth (YearFromTime t) m) :
    MonthFromTime t = m := by
  have hl := InLeapYear_cases t
  have he := InLeapYear_eq t
  unfold MonthFromTime
  dsimp only
  interval_cases m <;> unfold monthStart at hlo hhi <;> unfold daysInMonth at hhi <;> omega

/-- The function `MakeDay` lands on the first day of the month asked for: the year, month
and day of month read back from its result are the ones given. -/
theorem civil_MakeDay (y m : Int) (hm0 : 0 ≤ m) (hm1 : m ≤ 11) :
    civil (MakeDay y m 1) = (y, m, 1) := by
  have e1 : m / 12 = 0 := by omega
  have e2 : m % 12 = m := by omega
  have hk : MakeDay y m 1 = DayFromYear y + monthStart m (if DaysInYear y = 366 then 1 else 0) := by
    unfold MakeDay
    dsimp only
    rw [e1, e2, add_zero]
    omega
  have hc := DaysInYear_cases y
  have hy : YearFromTime (MakeDay y m 1) = y := by
    apply YearFromTime_unique
    · rw [hk]
      unfold monthStart
      omega
    · rw [DayFromYear_succ, hk]
      unfold monthStart
      omega
  have hl : InLeapYear (MakeDay y m 1) = if DaysInYear y = 366 then 1 else 0 := by
    unfold InLeapYear
    rw [hy]
  have hw : DayWithinYear (MakeDay y m 1) = monthStart m (InLeapYear (MakeDay y m 1)) := by
    rw [hl]
    unfold DayWithinYear
    rw [hy, hk]
    omega
  have hdim : 0 < daysInMonth y m := by
    unfold daysInMonth
    omega
  have hmo : MonthFromTime (MakeDay y m 1) = m := by
    apply MonthFromTime_unique _ _ hm0 hm1
    · omega
    · rw [hy]
      omega
  have hda : DateFromTime (MakeDay y m 1) = 1 := by
    rw [DateFromTime_eq, hmo, hw]
    omega
  simp [civil, hy, hmo, hda]

/-- Day numbers step through the calendar: the calendar date of `t + 1` is the
date after the calendar date of `t`, across month and year ends. -/
theorem civil_succ (t : Int) : civil (t + 1) = nextDay (civil t) := by
  obtain ⟨s1, s2⟩ := YearFromTime_spec t
  have hw := MonthFromTime_window t
  have hd := DateFromTime_eq t
  have hmb := MonthFromTime_bounds t
  have hl := InLeapYear_cases t
  have he := InLeapYear_eq t
  have hs := DayFromYear_succ (YearFromTime t)
  have hdim : 0 < daysInMonth (YearFromTime t) (MonthFromTime t + 1) := by
    unfold daysInMonth
    omega
  by_cases hlast : t + 1 < DayFromYear (YearFromTime t + 1)
  · -- the next day lies in the same year
    have hy : YearFromTime (t + 1) = YearFromTime t :=
      YearFromTime_unique (by omega) hlast
    have hl2 : InLeapYear (t + 1) = InLeapYear t := by
      unfold InLeapYear
      rw [hy]
    have hw2 : DayWithinYear (t + 1) = DayWithinYear t + 1 := by
      unfold DayWithinYear
      rw [hy]
      omega
    have hd2 := DateFromTime_eq (t + 1)
    by_cases hin : DateFromTime t < daysInMonth (YearFromTime t) (MonthFromTime t)
    · have hm2 : MonthFromTime (t + 1) = MonthFromTime t := by
        apply MonthFromTime_unique _ _ hmb.1 hmb.2
        · rw [hl2, hw2]; omega
        · rw [hl2, hw2, hy]; omega
      rw [hm2, hl2, hw2] at hd2
      have hd3 : DateFromTime (t + 1) = DateFromTime t + 1 := by omega
      simp [civil, nextDay, hy, hm2, hd3, hin]
    · have hne : MonthFromTime t ≤ 10 := by
        by_contra hc
        have h11 : MonthFromTime t = 11 := by omega
        rw [h11] at hw hd hin
        unfold DayWithinYear at hw hd
        unfold monthStart daysInMonth at hw
        unfold monthStart at hd
        unfold daysInMonth at hin
        omega
      have hsucc := monthStart_succ t (MonthFromTime t) hmb.1 hne
      have hm2 : MonthFromTime (t + 1) = MonthFromTime t + 1 := by
        apply MonthFromTime_unique _ _ (by omega) (by omega)
        · rw [hl2, hw2]; omega
        · rw [hl2, hw2, hy]; omega
      rw [hm2, hl2, hw2] at hd2
      have hd3 : DateFromTime (t + 1) = 1 := by omega
      have hlt : MonthFromTime t < 11 := by omega
      simp [civil, nextDay, hy, hm2, hd3, hin, hlt]
  · -- the next day is 1 January of the next year
    have hy : YearFromTime (t + 1) = YearFromTime t + 1 := by
      apply YearFromTime_unique (by omega)
      rw [DayFromYear_succ]
      have := DaysInYear_cases (YearFromTime t + 1)
      omega
    have hw2 : DayWithinYear (t + 1) = 0 := by
      unfold DayWithinYear
      rw [hy]
      omega
    have hm2 : MonthFromTime (t + 1) = 0 := by
      apply MonthFromTime_unique _ _ (by omega) (by omega)
      · rw [hw2]; unfold monthStart; omega
      · rw [hw2]; unfold monthStart daysInMonth; omega
    have hd2 : DateFromTime (t + 1) = 1 := by
      rw [DateFromTime_eq, hm2, hw2]
      unfold monthStart
      omega
    have hwt : DayWithinYear t = 364 + InLeapYear t := by
      unfold DayWithinYear
      omega
    have hm : MonthFromTime t = 11 := by
      apply MonthFromTime_unique _ _ (by omega) (by omega)
      · rw [hwt]; unfold monthStart; omega
      · rw [hwt]; unfold monthStart daysInMonth; omega
    have hdt : DateFromTime t = 31 := by
      rw [hd, hm, hwt]
      unfold monthStart
      omega
    have hdim11 : daysInMonth (YearFromTime t) 11 = 31 := by
      unfold daysInMonth
      omega
    simp [civil, nextDay, hy, hm2, hd2, hm, hdt, hdim11]

/-! ### Facts about `DateString` -/

theorem weekdayName_length (w : Int) : (weekdayName w).data.length = 3 := by
  unfold weekdayName
  repeat' split
  all_goals rfl

theorem monthName_length (m : Int) : (monthName m).data.length = 3 := by
  unfold monthName
  repeat' split
  all_goals rfl

theorem monthIndex_monthName (m : Int) (h0 : 0 ≤ m) (h1 : m ≤ 11) :
    monthIndex (monthName m) = m := by
  interval_cases m <;> decide

theorem twoDigits_nat : ∀ n < 32,
    (ToZeroPaddedDecimalString n 2).data.length = 2 ∧
    decimalValue (ToZeroPaddedDecimalString n 2).data = n ∨ n = 0 := by
  decide

theorem twoDigits (d : Int) (h0 : 1 ≤ d) (h1 : d ≤ 31) :
    (ToZeroPaddedDecimalString d.toNat 2).data.length = 2 ∧
    (decimalValue (ToZeroPaddedDecimalString d.toNat 2).data : Int) = d := by
  have h := twoDigits_nat d.toNat (by omega)
  rcases h with ⟨h2, h3⟩ | h
  · exact ⟨h2, by rw [h3]; omega⟩
  · omega

/-- The string of `DateString` determines the month and the day of the
month. -/
theorem DateString_month_date {a b : Int} (h : DateString a = DateString b) :
    MonthFromTime a = MonthFromTime b ∧ DateFromTime a = DateFromTime b := by
  have hd := congrArg String.data h
  unfold DateString at hd
  simp only [String.data_append, List.append_assoc] at hd
  obtain ⟨-, hd⟩ := List.append_inj hd (by rw [weekdayName_length, weekdayName_length])
  obtain ⟨-, hd⟩ := List.append_inj hd rfl
  obtain ⟨hm, hd⟩ := List.append_inj hd (by rw [monthName_length, monthName_length])
  obtain ⟨-, hd⟩ := List.append_inj hd rfl
  have ha := twoDigits _ (DateFromTime_bounds a).1
    (le_trans (DateFromTime_bounds a).2 (daysInMonth_le _ _))
  have hb := twoDigits _ (DateFromTime_bounds b).1
    (le_trans (DateFromTime_bounds b).2 (daysInMonth_le _ _))
  obtain ⟨hdd, -⟩ := List.append_inj hd (by rw [ha.1, hb.1])
  constructor
  · have hma := monthIndex_monthName _ (MonthFromTime_bounds a).1 (MonthFromTime_bounds a).2
    have hmb := monthIndex_monthName _ (MonthFromTime_bounds b).1 (MonthFromTime_bounds b).2
    have : monthName (MonthFromTime a) = monthName (MonthFromTime b) := String.ext hm
    rw [← hma, ← hmb, this]
  · rw [← ha.2, ← hb.2, hdd]

theorem YearFromTime_mono {a b : Int} (h : a ≤ b) : YearFromTime a ≤ YearFromTime b := by
  obtain ⟨a1, -⟩ := YearFromTime_spec a
  obtain ⟨-, b2⟩ := YearFromTime_spec b
  by_contra hc
  have := DayFromYear_mono (show YearFromTime b + 1 ≤ YearFromTime a by omega)
  omega

/-- Two different days less than three weeks apart differ in the month or in
the day of the month. -/
theorem month_date_ne {a b : Int} (hab : a < b) (hb : b ≤ a + 20) :
    ¬ (MonthFromTime a = MonthFromTime b ∧ DateFromTime a = DateFromTime b) := by
  rintro ⟨hm, hd⟩
  have ca := day_of_civil a
  have cb := day_of_civil b
  have hy := YearFromTime_mono (le_of_lt hab)
  rw [← hm, ← hd] at cb
  rcases eq_or_lt_of_le hy with he | hlt
  · have hl : InLeapYear a = InLeapYear b := by
      unfold InLeapYear
      rw [he]
    rw [← he, ← hl] at cb
    omega
  · have h1 := DayFromYear_mono (show YearFromTime a + 1 ≤ YearFromTime b by omega)
    rw [DayFromYear_succ, InLeapYear_eq] at h1
    have la := InLeapYear_cases a
    have lb := InLeapYear_cases b
    have hms : monthStart (MonthFromTime a) (InLeapYear a)
        ≤ monthStart (MonthFromTime a) (InLeapYear b) + InLeapYear a := by
      unfold monthStart
      omega
    omega

theorem DateString_ne {a b : Int} (hab : a < b) (hb : b ≤ a + 20) :
    DateString a ≠ DateString b :=
  fun h => month_date_ne hab hb (DateString_month_date h)

/-! ## The booking wizard -/

theorem worldInv_init : WorldInv World.init := by
  simp [WorldInv, Gated, World.init, initialState]

theorem confirmClick_some {st : AppState} {createdAt : String} {b : NewBooking}
    (h : confirmClick st createdAt = some b) :
    wizardShown st = true ∧ st.step = 5 ∧ st.bookingData.name ≠ "" ∧
    st.bookingData.phone ≠ "" ∧ st.user ≠ none ∧
    ∃ d, st.bookingData.date = some d ∧
      b = { barberId := st.activeBarberId, service := st.bookingData.service,
            time := st.bookingData.time, date := d.full, name := st.bookingData.name,
            phone := st.bookingData.phone, createdAt := createdAt } := by
  unfold confirmClick at h
  split at h
  · rename_i hc
    simp only [Bool.and_eq_true, beq_iff_eq, Bool.not_eq_true', confirmDisabled,
      Bool.or_eq_false_iff, beq_eq_false_iff_ne, ne_eq] at hc
    obtain ⟨⟨hs, h5⟩, hn, hp⟩ := hc
    unfold handleBookingRequest at h
    split at h
    · exact absurd h (by simp)
    · rename_i u hu
      split at h
      · exact absurd h (by simp)
      · rename_i d hd
        refine ⟨hs, h5, hn, hp, by simp [hu], d, hd, ?_⟩
        exact (Option.some.inj h).symm
  · exact absurd h (by simp)

theorem worldInv_step (w : World) (e : Event) (h : WorldInv w) : WorldInv (w.step e) := by
  obtain ⟨⟨g3, g4, g5⟩, hp⟩ := h
  cases e with
  | clickService s =>
    simp only [World.step]
    split
    · refine ⟨⟨?_, ?_, ?_⟩, ?_⟩ <;> simp_all [selectService]
    · exact ⟨⟨g3, g4, g5⟩, hp⟩
  | clickDate now i =>
    simp only [World.step]
    split
    · split
      · refine ⟨⟨?_, ?_, ?_⟩, ?_⟩ <;> simp_all [selectDate]
      · exact ⟨⟨g3, g4, g5⟩, hp⟩
    · exact ⟨⟨g3, g4, g5⟩, hp⟩
  | clickTime t =>
    simp only [World.step]
    split
    · refine ⟨⟨?_, ?_, ?_⟩, ?_⟩ <;> simp_all [selectTime]
    · exact ⟨⟨g3, g4, g5⟩, hp⟩
  | typeName v =>
    simp only [World.step]
    split
    · exact ⟨⟨g3, g4, g5⟩, hp⟩
    · exact ⟨⟨g3, g4, g5⟩, hp⟩
  | typePhone v =>
    simp only [World.step]
    split
    · exact ⟨⟨g3, g4, g5⟩, hp⟩
    · exact ⟨⟨g3, g4, g5⟩, hp⟩
  | clickBackToServices =>
    simp only [World.step]
    split
    · refine ⟨⟨?_, ?_, ?_⟩, hp⟩ <;> simp [backToServices]
    · exact ⟨⟨g3, g4, g5⟩, hp⟩
  | clickBackToDates =>
    simp only [World.step]
    split
    · rename_i hc
      simp only [Bool.and_eq_true, beq_iff_eq] at hc
      have h3 := g3 (by omega)
      refine ⟨⟨?_, ?_, ?_⟩, hp⟩ <;> simp [backToDates, h3]
    · exact ⟨⟨g3, g4, g5⟩, hp⟩
  | clickConfirm createdAt =>
    simp only [World.step]
    split
    · rename_i b hb
      obtain ⟨-, h5, -⟩ := confirmClick_some hb
      exact ⟨⟨g3, g4, g5⟩, fun _ => g5 (by omega)⟩
    · exact ⟨⟨g3, g4, g5⟩, hp⟩
  | addDocSettled ok =>
    simp only [World.step]
    split
    · exact ⟨⟨g3, g4, g5⟩, hp⟩
    · rename_i hne
      have hall := hp (Nat.pos_of_ne_zero hne)
      cases ok
      · exact ⟨⟨g3, g4, g5⟩, fun _ => hall⟩
      · exact ⟨⟨fun _ => hall.1, fun _ => ⟨hall.1, hall.2.1⟩, fun _ => hall⟩, fun _ => hall⟩
  | clickBookAnother =>
    simp only [World.step]
    split
    · refine ⟨⟨?_, ?_, ?_⟩, hp⟩ <;> simp [bookAnother]
    · exact ⟨⟨g3, g4, g5⟩, hp⟩
  | clickLogo =>
    refine ⟨⟨?_, ?_, ?_⟩, hp⟩ <;> simp [World.step, navbarHome]
  | clickStaff =>
    simp only [World.step]
    split
    · exact ⟨⟨g3, g4, g5⟩, hp⟩
    · exact ⟨⟨g3, g4, g5⟩, hp⟩
  | clickDashboard =>
    simp only [World.step]
    split
    · exact ⟨⟨g3, g4, g5⟩, hp⟩
    · exact ⟨⟨g3, g4, g5⟩, hp⟩
  | clickExit =>
    simp only [World.step]
    split
    · exact ⟨⟨g3, g4, g5⟩, hp⟩
    · exact ⟨⟨g3, g4, g5⟩, hp⟩
  | submitAuthForm outcome =>
    simp only [World.step]
    split
    · cases outcome <;> exact ⟨⟨g3, g4, g5⟩, hp⟩
    · exact ⟨⟨g3, g4, g5⟩, hp⟩
  | authStateChanged u => exact ⟨⟨g3, g4, g5⟩, hp⟩
  | barberDocLoaded docSnap => cases docSnap <;> exact ⟨⟨g3, g4, g5⟩, hp⟩
  | profileLoaded profile => exact ⟨⟨g3, g4, g5⟩, hp⟩
  | bookingsSnapshot docs => exact ⟨⟨g3, g4, g5⟩, hp⟩

theorem worldInv_run (es : List Event) (w : World) (h : WorldInv w) : WorldInv (w.run es) := by
  induction es generalizing w with
  | nil => exact h
  | cons e es ih => exact ih (w.step e) (worldInv_step w e h)

/-- C1. In every state reached from the initial state by any sequence of
events, the draft holds a service from step 3 (SelectDate) on, a service and a
date from step 4 (SelectTime) on, and a service, a date and a time from step 5
(CollectDetails) on. -/
theorem wizard_gating_invariant (es : List Event) :
    (3 ≤ (World.init.run es).app.step → (World.init.run es).app.bookingData.service ≠ none) ∧
    (4 ≤ (World.init.run es).app.step →
      (World.init.run es).app.bookingData.service ≠ none ∧
      (World.init.run es).app.bookingData.date ≠ none) ∧
    (5 ≤ (World.init.run es).app.step →
      (World.init.run es).app.bookingData.service ≠ none ∧
      (World.init.run es).app.bookingData.date ≠ none ∧
      (World.init.run es).app.bookingData.time ≠ none) :=
  (worldInv_run es World.init worldInv_init).1

theorem wizard_gating_invariant_witness :
    5 ≤ (World.init.run scenarioA).app.step ∧
    (World.init.run scenarioA).app.bookingData.service ≠ none ∧
    (World.init.run scenarioA).app.bookingData.date ≠ none ∧
    (World.init.run scenarioA).app.bookingData.time ≠ none :=
  ⟨by decide, (wizard_gating_invariant scenarioA).2.2 (by decide)⟩

/-- The two events of a submit, taken one after the other with no call of
`addDoc` in flight, are the whole submit `submit`. -/
theorem submit_eq_events (w : World) (createdAt : String) (ok : Bool) (h0 : w.pending = 0) :
    (w.step (Event.clickConfirm createdAt)).step (Event.addDocSettled ok)
      = { app := (submit w.app createdAt ok).1,
          writes := w.writes ++ (submit w.app createdAt ok).2,
          pending := 0 } := by
  obtain ⟨app, writes, pending⟩ := w
  simp only at h0
  subst h0
  simp only [World.step, submit]
  cases confirmClick app createdAt <;> simp [World.step]

/-- C2. A submit at step 5 (CollectDetails) ends at step 6 (Confirmed) only if
name and phone are both non-empty and `addDoc` succeeded (one call was
issued); with an empty name or an empty phone it changes nothing and issues no
call; in every case the step afterwards is 5 or 6. -/
theorem submit_gate (st : AppState) (createdAt : String) (ok : Bool) (h5 : st.step = 5) :
    ((submit st createdAt ok).1.step = 6 →
      st.bookingData.name ≠ "" ∧ st.bookingData.phone ≠ "" ∧ ok = true ∧
      (submit st createdAt ok).2.length = 1) ∧
    (st.bookingData.name = "" ∨ st.bookingData.phone = "" →
      (submit st createdAt ok).1 = st ∧ (submit st createdAt ok).2 = []) ∧
    ((submit st createdAt ok).1.step = 5 ∨ (submit st createdAt ok).1.step = 6) := by
  unfold submit
  cases hc : confirmClick st createdAt with
  | none =>
    refine ⟨?_, ?_, ?_⟩
    · intro h6
      simp only at h6
      omega
    · intro _
      exact ⟨rfl, rfl⟩
    · exact Or.inl h5
  | some b =>
    obtain ⟨-, -, hn, hp, -, -⟩ := confirmClick_some hc
    refine ⟨?_, ?_, ?_⟩
    · intro h6
      refine ⟨hn, hp, ?_, rfl⟩
      cases ok
      · simp only [handleBookingSettle] at h6
        simp at h6
        omega
      · rfl
    · rintro (h | h)
      · exact absurd h hn
      · exact absurd h hp
    · cases ok
      · exact Or.inl h5
      · exact Or.inr rfl

theorem submit_gate_witness :
    detailsState.step = 5 ∧
    ((submit detailsState "2024-01-01T09:00:00.000Z" true).1.step = 6 →
      detailsState.bookingData.name ≠ "" ∧ detailsState.bookingData.phone ≠ "" ∧ true = true ∧
      (submit detailsState "2024-01-01T09:00:00.000Z" true).2.length = 1) ∧
    (submit detailsState "2024-01-01T09:00:00.000Z" true).1.step = 6 :=
  ⟨by decide, (submit_gate detailsState "2024-01-01T09:00:00.000Z" true (by decide)).1,
    by decide⟩

/-- C3. A submit at step 5 whose `addDoc` call fails leaves the step at 5 and
the draft (service, date, time, name, phone) as it was, and the error message
is "Failed to save booking.", which is not empty. -/
theorem submit_write_failure (st : AppState) (createdAt : String) (h5 : st.step = 5)
    (hw : (submit st createdAt false).2 ≠ []) :
    (submit st createdAt false).1.step = 5 ∧
    (submit st createdAt false).1.error = "Failed to save booking." ∧
    (submit st createdAt false).1.error ≠ "" ∧
    (submit st createdAt false).1.bookingData = st.bookingData := by
  unfold submit at hw ⊢
  cases hc : confirmClick st createdAt with
  | none => rw [hc] at hw; exact absurd rfl hw
  | some b =>
    refine ⟨h5, rfl, ?_, rfl⟩
    simp [handleBookingSettle]

theorem submit_write_failure_witness :
    detailsState.step = 5 ∧
    (submit detailsState "2024-01-01T09:00:00.000Z" false).2 ≠ [] ∧
    (submit detailsState "2024-01-01T09:00:00.000Z" false).1.step = 5 ∧
    (submit detailsState "2024-01-01T09:00:00.000Z" false).1.error = "Failed to save booking." ∧
    (submit detailsState "2024-01-01T09:00:00.000Z" false).1.error ≠ "" ∧
    (submit detailsState "2024-01-01T09:00:00.000Z" false).1.bookingData
      = detailsState.bookingData :=
  ⟨by decide, by decide,
    submit_write_failure detailsState "2024-01-01T09:00:00.000Z" (by decide) (by decide)⟩

/-- C4, as stated, fails: after scenario A the wizard is at step 6, and
"Book another session" leads to step 2 with the draft still holding the
service, date, time, name and phone of the booking just made. -/
theorem reset_clears_draft_counterexample :
    (World.init.run scenarioA).app.step = 6 ∧
    ((World.init.run scenarioA).step Event.clickBookAnother).app.step = 2 ∧
    ((World.init.run scenarioA).step Event.clickBookAnother).app.bookingData ≠ emptyDraft ∧
    ((World.init.run scenarioA).step Event.clickBookAnother).app.bookingData.name = "Sam Doe" := by
  decide

/-- C4, amended. From step 6 (Confirmed), "Book another session" yields step 2
(SelectService) and changes nothing else: every field of the draft keeps its
value. -/
theorem reset_keeps_draft (w : World) (hs : wizardShown w.app = true) (h6 : w.app.step = 6) :
    (w.step Event.clickBookAnother).app.step = 2 ∧
    (w.step Event.clickBookAnother).app.bookingData = w.app.bookingData ∧
    (w.step Event.clickBookAnother) = { w with app := { w.app with step := 2 } } := by
  simp [World.step, hs, h6, bookAnother]

theorem reset_keeps_draft_witness :
    ((World.init.run scenarioA).step Event.clickBookAnother).app.step = 2 ∧
    ((World.init.run scenarioA).step Event.clickBookAnother).app.bookingData
      = (World.init.run scenarioA).app.bookingData ∧
    ((World.init.run scenarioA).step Event.clickBookAnother)
      = { World.init.run scenarioA with
          app := { (World.init.run scenarioA).app with step := 2 } } :=
  reset_keeps_draft (World.init.run scenarioA) (by decide) (by decide)

/-- C5. From the initial state, once a principal is signed in and the barber
document has been answered: choosing a catalog service `s`, the date `d` of
the window, a time slot `t`, entering a non-empty name `n` and phone `p`, and
confirming with a successful `addDoc`, issues exactly one call of `addDoc`,
whose object carries the active barber id, `s` itself, `d.full`, `t`, `n` and
`p`; the wizard ends at step 6 with the draft still holding `s`, `d`, `t`. -/
theorem happy_path (u : User) (docSnap : Option BarberData) (s : Service) (clock : Clock)
    (i : Nat) (d : CalendarDay) (t n p createdAt : String)
    (hs : s ∈ SERVICES) (hd : (getAvailableDates clock)[i]? = some d) (ht : t ∈ TIME_SLOTS)
    (hn : n ≠ "") (hp : p ≠ "") :
    (World.init.run
      [ Event.authStateChanged (some u), Event.barberDocLoaded docSnap,
        Event.clickService s, Event.clickDate clock i, Event.clickTime t,
        Event.typeName n, Event.typePhone p,
        Event.clickConfirm createdAt, Event.addDocSettled true ])
    = { app :=
          { initialState with
            user := some u
            barberData := some (docSnap.getD fallbackBarberData)
            step := 6
            bookingData :=
              { service := some s, date := some d, time := some t, name := n, phone := p } }
        writes :=
          [ { barberId := initialState.activeBarberId, service := some s, time := some t,
              date := d.full, name := n, phone := p, createdAt := createdAt } ]
        pending := 0 } := by
  cases docSnap <;>
    simp [World.run, World.step, World.init, initialState, onBarberDoc, wizardShown,
      selectService, selectDate, selectTime, changeName, changePhone, confirmClick,
      confirmDisabled, handleBookingRequest, handleBookingSettle, hs, hd, ht, hn, hp]

theorem happy_path_witness :
    World.init.run scenarioA
    = { app :=
          { initialState with
            user := some { uid := "anon-1", isAnonymous := true }
            barberData := some fallbackBarberData
            step := 6
            bookingData :=
              { service := some { id := 2, name := "Beard Maintenance", duration := "20 min",
                                  price := 15 },
                date := some scenarioDay, time := some "09:45", name := "Sam Doe",
                phone := "0850000000" } }
        writes :=
          [ { barberId := "evan",
              service := some { id := 2, name := "Beard Maintenance", duration := "20 min",
                                price := 15 },
              time := some "09:45", date := "Mon Jan 01 2024", name := "Sam Doe",
              phone := "0850000000", createdAt := "2024-01-01T09:00:00.000Z" } ]
        pending := 0 } :=
  happy_path { uid := "anon-1", isAnonymous := true } none
    { id := 2, name := "Beard Maintenance", duration := "20 min", price := 15 } scenarioClock 0
    scenarioDay "09:45" "Sam Doe" "0850000000" "2024-01-01T09:00:00.000Z"
    (by decide) (by decide) (by decide) (by decide) (by decide)

/-! ## The dashboard -/

theorem excessBits_small (n : Nat) (h : n < 2 ^ 53) : excessBits n n = 0 := by
  cases n with
  | zero => rfl
  | succ m =>
    unfold excessBits
    rw [if_pos h]

/-- The bound on the halvings is enough: what is left of `n` after dropping
`excessBits n fuel` low bits fits in 53 bits, and dropping one bit less would
not. -/
theorem excessBits_spec (fuel n : Nat) (h : n ≤ fuel) :
    n / 2 ^ excessBits n fuel < 2 ^ 53 ∧
    (0 < excessBits n fuel → 2 ^ 53 ≤ n / 2 ^ (excessBits n fuel - 1)) := by
  induction fuel generalizing n with
  | zero =>
    have h0 : n = 0 := by omega
    subst h0
    simp [excessBits]
  | succ f ih =>
    unfold excessBits
    by_cases hn : n < 2 ^ 53
    · rw [if_pos hn]
      simpa using hn
    · rw [if_neg hn]
      have hpos : 2 ^ 53 ≤ n := Nat.le_of_not_lt hn
      have hle : n / 2 ≤ f := by
        have : 0 < 2 ^ 53 := by norm_num
        omega
      obtain ⟨i1, i2⟩ := ih (n / 2) hle
      constructor
      · rw [pow_succ, mul_comm, ← Nat.div_div_eq_div_mul]
        exact i1
      · intro _
        rw [Nat.add_sub_cancel]
        by_cases hk : excessBits (n / 2) f = 0
        · rw [hk, pow_zero, Nat.div_one]
          exact hpos
        · have i3 := i2 (Nat.pos_of_ne_zero hk)
          obtain ⟨j, hj⟩ := Nat.exists_eq_succ_of_ne_zero hk
          rw [hj, Nat.succ_sub_one] at i3
          have e : n / 2 ^ (j + 1) = n / 2 / 2 ^ j := by
            rw [Nat.div_div_eq_div_mul, Nat.pow_succ, Nat.mul_comm]
          rw [hj, Nat.succ_eq_add_one, e]
          exact i3

/-- An integer of magnitude at most 2^53 is a double. -/
theorem roundToDouble_exact (x : Int) (h : x.natAbs ≤ 2 ^ 53) : roundToDouble x = x := by
  rcases Nat.lt_or_eq_of_le h with hlt | heq
  · unfold roundToDouble
    simp only [excessBits_small _ hlt, pow_zero, Nat.div_one, Nat.mod_one, mul_zero, mul_one]
    rw [if_neg (by omega)]
    exact Int.sign_mul_natAbs x
  · rcases Int.natAbs_eq x with hx | hx
    · rw [hx, heq]; decide
    · rw [hx, heq]; decide

theorem jsAdd_exact (a b : Int) (h : (a + b).natAbs ≤ 2 ^ 53) : jsAdd a b = some (a + b) := by
  unfold jsAdd
  simp only [roundToDouble_exact _ h]
  rw [if_pos]
  calc (a + b).natAbs ≤ 2 ^ 53 := h
    _ < 2 ^ 1024 := by norm_num

/-- While the partial sums stay within 2^53 in magnitude the accumulator of
`reduce` is the exact sum. -/
theorem foldl_price (l : List Int) (init : Int)
    (h : ∀ k : Nat, k ≤ l.length → (init + (l.take k).sum).natAbs ≤ 2 ^ 53) :
    l.foldl (fun acc price => acc.bind (fun a => jsAdd a price)) (some init)
      = some (init + l.sum) := by
  induction l generalizing init with
  | nil => simp
  | cons b l ih =>
    have h1 := h 1 (by simp)
    simp only [List.take_succ_cons, List.take_zero, List.sum_cons, List.sum_nil,
      add_zero] at h1
    simp only [List.foldl_cons, Option.some_bind, jsAdd_exact init b h1, List.sum_cons]
    rw [ih (init + b), add_assoc]
    intro k hk
    have h2 := h (k + 1) (by simp; omega)
    simp only [List.take_succ_cons, List.sum_cons] at h2
    rw [add_assoc]
    exact h2

theorem foldl_booking_prices (l : List Booking) (acc : Option Int) :
    l.foldl (fun acc curr => acc.bind (fun a => jsAdd a curr.service.price)) acc
      = (l.map (fun b => b.service.price)).foldl
          (fun acc price => acc.bind (fun a => jsAdd a price)) acc := by
  rw [List.foldl_map]

theorem filter_prices (l : List Booking) (p : String) :
    (l.filter (fun b => b.barberId == p)).map (fun b => b.service.price)
      = ((l.map (fun b => (b.barberId, b.service.price))).filter (fun x => x.1 == p)).map
          (fun x => x.2) := by
  induction l with
  | nil => rfl
  | cons b l ih =>
    by_cases h : b.barberId = p
    · simp [List.filter_cons, h, ih]
    · simp [List.filter_cons, h, ih]

theorem filter_beq_decide (l : List Booking) (p : String) :
    l.filter (fun b => b.barberId == p) = l.filter (fun b => decide (b.barberId = p)) := by
  congr 1

/-- C6. The list shown by the dashboard is the feed filtered by the barber id
of the dashboard: a sub-sequence of the feed, in feed order, holding exactly
the reservations of that barber, each as often as the feed holds it; the count
shown is the length of that list. -/
theorem dashboard_orderedList (feed : List Booking) (p : String) (st : AppState)
    (hf : st.allBookings = feed) (hp : dashboardBarberId st = p) :
    (Dashboard st).myBookings = feed.filter (fun b => decide (b.barberId = p)) ∧
    List.Sublist (Dashboard st).myBookings feed ∧
    (∀ b, b ∈ (Dashboard st).myBookings ↔ b ∈ feed ∧ b.barberId = p) ∧
    (∀ b, b.barberId = p → (Dashboard st).myBookings.count b = feed.count b) ∧
    (∀ b, b.barberId ≠ p → b ∉ (Dashboard st).myBookings) ∧
    (Dashboard st).count = (Dashboard st).myBookings.length := by
  subst hf hp
  have e : (Dashboard st).myBookings
      = st.allBookings.filter (fun b => decide (b.barberId = dashboardBarberId st)) := by
    rw [← filter_beq_decide]
    rfl
  refine ⟨e, ?_, ?_, ?_, ?_, rfl⟩
  · rw [e]; exact List.filter_sublist _
  · intro b; rw [e]; simp [List.mem_filter]
  · intro b hb; rw [e, List.count_filter]; simpa using hb
  · intro b hb; rw [e]; simp [List.mem_filter, hb]

theorem dashboard_orderedList_witness :
    (Dashboard scenarioD).myBookings
      = scenarioD.allBookings.filter (fun b => decide (b.barberId = "evan")) ∧
    (Dashboard scenarioD).myBookings.map (fun b => b.id) = ["r1", "r3"] ∧
    (Dashboard scenarioD).count = 2 :=
  ⟨(dashboard_orderedList scenarioD.allBookings "evan" scenarioD rfl (by decide)).1,
    by decide, by decide⟩

/-- The revenue of the dashboard as a fold over the stored prices of its
reservations. -/
theorem Dashboard_totalRevenue_eq (st : AppState) :
    (Dashboard st).totalRevenue
      = ((st.allBookings.filter (fun b => b.barberId == dashboardBarberId st)).map
          (fun b => b.service.price)).foldl
            (fun acc price => acc.bind (fun a => jsAdd a price)) (some 0) := by
  simp only [Dashboard]
  exact foldl_booking_prices _ _

/-- The sum of 2^53 and 1 is not a double: `+` gives 2^53. -/
theorem jsAdd_large : jsAdd 9007199254740992 1 = some 9007199254740992 := by
  have h : roundToDouble (9007199254740992 + 1) = 9007199254740992 := by decide
  unfold jsAdd
  simp only [h]
  rw [if_pos (by norm_num)]

/-- C7, as stated, fails: for two reservations of "evan" with the integer
prices 2^53 and 1 the dashboard shows 9007199254740992, one less than the
integer sum 9007199254740993, because `+` rounds to a double. -/
theorem dashboard_totalRevenue_counterexample :
    (Dashboard scenarioLargePrices).totalRevenue = some 9007199254740992 ∧
    ((scenarioLargePrices.allBookings.filter (fun b : Booking => decide (b.barberId = "evan"))).map
      (fun b => b.service.price)).sum = 9007199254740993 ∧
    (Dashboard scenarioLargePrices).totalRevenue
      ≠ some ((scenarioLargePrices.allBookings.filter
          (fun b : Booking => decide (b.barberId = "evan"))).map
            (fun b => b.service.price)).sum := by
  have h0 : jsAdd 0 9007199254740992 = some 9007199254740992 :=
    jsAdd_exact 0 9007199254740992 (by decide)
  have hl : (scenarioLargePrices.allBookings.filter
      (fun b => b.barberId == dashboardBarberId scenarioLargePrices)).map
        (fun b => b.service.price) = [9007199254740992, 1] := by decide
  have ht : (Dashboard scenarioLargePrices).totalRevenue = some 9007199254740992 := by
    rw [Dashboard_totalRevenue_eq, hl]
    simp only [List.foldl_cons, List.foldl_nil, Option.some_bind, h0, jsAdd_large]
  have hsum : ((scenarioLargePrices.allBookings.filter
      (fun b : Booking => decide (b.barberId = "evan"))).map
        (fun b => b.service.price)).sum = 9007199254740993 := by decide
  refine ⟨ht, hsum, ?_⟩
  rw [ht, hsum]
  decide

/-- C7, amended.  When the partial sums of the prices stored in the
reservations of the barber, taken in feed order, stay within 2^53 in
magnitude, the revenue shown by the dashboard is the integer sum of those
prices, 0 when there are none; with or without that bound it is the same for
any other feed whose reservations carry the same barber ids and prices,
whatever the other fields of their stored services are. -/
theorem dashboard_totalRevenue (feed : List Booking) (p : String) (st : AppState)
    (hf : st.allBookings = feed) (hp : dashboardBarberId st = p)
    (hb : ∀ k : Nat, k ≤ feed.length →
      ((((feed.filter (fun b : Booking => decide (b.barberId = p))).map
        (fun b : Booking => b.service.price)).take k).sum).natAbs ≤ 2 ^ 53) :
    (Dashboard st).totalRevenue
      = some ((feed.filter (fun b => decide (b.barberId = p))).map
          (fun b => b.service.price)).sum ∧
    ((∀ b ∈ feed, b.barberId ≠ p) → (Dashboard st).totalRevenue = some 0) ∧
    (∀ st2 : AppState, dashboardBarberId st2 = p →
      st2.allBookings.map (fun b => (b.barberId, b.service.price))
        = feed.map (fun b => (b.barberId, b.service.price)) →
      (Dashboard st2).totalRevenue = (Dashboard st).totalRevenue) := by
  subst hf hp
  have e := Dashboard_totalRevenue_eq
  have hsum : (Dashboard st).totalRevenue
      = some ((st.allBookings.filter
          (fun b => decide (b.barberId = dashboardBarberId st))).map
            (fun b => b.service.price)).sum := by
    rw [e, filter_beq_decide, foldl_price _ 0, zero_add]
    intro k hk
    rw [zero_add]
    by_cases hk2 : k ≤ st.allBookings.length
    · exact hb k hk2
    · have hlen : ((st.allBookings.filter
          (fun b => decide (b.barberId = dashboardBarberId st))).map
            (fun b => b.service.price)).length ≤ st.allBookings.length := by
        rw [List.length_map]
        exact List.length_filter_le _ _
      omega
  refine ⟨hsum, ?_, ?_⟩
  · intro hnone
    rw [hsum]
    have : st.allBookings.filter (fun b => decide (b.barberId = dashboardBarberId st)) = [] := by
      rw [List.filter_eq_nil_iff]
      intro b hb2
      simpa using hnone b hb2
    rw [this]
    rfl
  · intro st2 hp2 hmap
    rw [e, e, filter_prices, filter_prices, hmap, hp2]

theorem dashboard_totalRevenue_witness :
    (Dashboard scenarioD).totalRevenue = some 45 ∧
    (Dashboard scenarioDRenamed).totalRevenue = (Dashboard scenarioD).totalRevenue :=
  ⟨(dashboard_totalRevenue scenarioD.allBookings "evan" scenarioD rfl (by decide)
      (by decide)).1.trans (by decide),
    (dashboard_totalRevenue scenarioD.allBookings "evan" scenarioD rfl (by decide)
      (by decide)).2.2 scenarioDRenamed (by decide) (by decide)⟩

/-- C10. A backward transition changes the step only: "Back to dates" (from
step 4 to 3) and "Back to services" (from step 3 to 2) leave every field of
the draft, and every other cell, as it was; choosing again at the step
returned to changes only the field chosen there. -/
theorem back_keeps_draft (w : World) :
    (w.step Event.clickBackToDates).app.bookingData = w.app.bookingData ∧
    (w.step Event.clickBackToServices).app.bookingData = w.app.bookingData ∧
    (wizardShown w.app = true → w.app.step = 4 →
      w.step Event.clickBackToDates = { w with app := { w.app with step := 3 } }) ∧
    (wizardShown w.app = true → w.app.step = 3 →
      w.step Event.clickBackToServices = { w with app := { w.app with step := 2 } }) ∧
    (∀ now i,
      ((w.step Event.clickBackToDates).step (Event.clickDate now i)).app.bookingData.service
        = w.app.bookingData.service ∧
      ((w.step Event.clickBackToDates).step (Event.clickDate now i)).app.bookingData.time
        = w.app.bookingData.time ∧
      ((w.step Event.clickBackToDates).step (Event.clickDate now i)).app.bookingData.name
        = w.app.bookingData.name ∧
      ((w.step Event.clickBackToDates).step (Event.clickDate now i)).app.bookingData.phone
        = w.app.bookingData.phone) ∧
    (∀ s,
      ((w.step Event.clickBackToServices).step (Event.clickService s)).app.bookingData.date
        = w.app.bookingData.date ∧
      ((w.step Event.clickBackToServices).step (Event.clickService s)).app.bookingData.time
        = w.app.bookingData.time ∧
      ((w.step Event.clickBackToServices).step (Event.clickService s)).app.bookingData.name
        = w.app.bookingData.name ∧
      ((w.step Event.clickBackToServices).step (Event.clickService s)).app.bookingData.phone
        = w.app.bookingData.phone) := by
  have hd : (w.step Event.clickBackToDates).app.bookingData = w.app.bookingData := by
    simp only [World.step]
    split <;> rfl
  have hs : (w.step Event.clickBackToServices).app.bookingData = w.app.bookingData := by
    simp only [World.step]
    split <;> rfl
  refine ⟨hd, hs, ?_, ?_, ?_, ?_⟩
  · intro h1 h2
    simp [World.step, h1, h2, backToDates]
  · intro h1 h2
    simp [World.step, h1, h2, backToServices]
  · intro now i
    rw [← hd]
    generalize w.step Event.clickBackToDates = v
    simp only [World.step]
    split
    · split
      · exact ⟨rfl, rfl, rfl, rfl⟩
      · exact ⟨rfl, rfl, rfl, rfl⟩
    · exact ⟨rfl, rfl, rfl, rfl⟩
  · intro s
    rw [← hs]
    generalize w.step Event.clickBackToServices = v
    simp only [World.step]
    split
    · exact ⟨rfl, rfl, rfl, rfl⟩
    · exact ⟨rfl, rfl, rfl, rfl⟩

/-! ## The availability window -/

/-- The calendar date of `t + i` is reached from the calendar date of `t` by
`i` steps to the next day. -/
theorem civil_add_nat (t : Int) (i : Nat) : civil (t + i) = nextDay^[i] (civil t) := by
  induction i with
  | zero => simp
  | succ k ih =>
    rw [Function.iterate_succ_apply', ← ih, ← civil_succ]
    congr 1
    push_cast
    ring

theorem DateString_eq_iff (now : Int) (i j : Nat) (hi : i < 21) (hj : j < 21) :
    DateString (now + i) = DateString (now + j) ↔ i = j := by
  constructor
  · intro h
    by_contra hne
    rcases Nat.lt_or_gt_of_ne hne with hlt | hgt
    · exact DateString_ne (a := now + i) (b := now + j) (by omega) (by omega) h
    · exact DateString_ne (a := now + j) (b := now + i) (by omega) (by omega) h.symm
  · rintro rfl
    rfl

theorem Day_MakeDate (day t : Int) : Day (MakeDate day (TimeWithinDay t)) = day := by
  unfold Day MakeDate TimeWithinDay msPerDay
  omega

/-- With the reads of one local day and the window in range, `setDate` leaves
the time value of the target of the round. -/
theorem setDate_window (clock : Clock) (hs : SameDayReads clock) (hr : WindowInRange clock)
    (i : Nat) (hi : i < 21) :
    setDate clock.tz (some (clock.loop i))
        ((getDate clock.tz (some clock.today)).map (fun n => n + (i : Int)))
      = some (UTC clock.tz (windowTarget clock i)) := by
  have h1 := hs i hi
  have h2 := hr i hi
  have e : setDate clock.tz (some (clock.loop i))
        ((getDate clock.tz (some clock.today)).map (fun n => n + (i : Int)))
      = TimeClip (UTC clock.tz (windowTarget clock i)) := by
    unfold localToday at h1
    simp only [setDate, getDate, Option.map_some', windowTarget, localToday, h1, MakeDay_add]
  rw [e]
  unfold TimeClip
  rw [if_neg (by omega)]

/-- With the reads of one local day, the window in range and no local day
skipped, the `Date` of round `i` lies on the local day `i` days after
today. -/
theorem window_day (clock : Clock) (he : WindowDaysExist clock) (i : Nat) (hi : i < 21) :
    Day (LocalTime clock.tz (UTC clock.tz (windowTarget clock i))) = localToday clock + i := by
  rw [he i hi]
  exact Day_MakeDate _ _

theorem getAvailableDates_getElem (clock : Clock) (hs : SameDayReads clock)
    (hr : WindowInRange clock) (he : WindowDaysExist clock) (i : Nat) (h : i < 21) :
    (getAvailableDates clock)[i]?
      = some { full := DateString (localToday clock + i)
               dayName := weekdayName (WeekDay (localToday clock + i))
               dayNum := some (DateFromTime (localToday clock + i))
               month := monthName (MonthFromTime (localToday clock + i))
               isToday := DateString (localToday clock + i) == DateString (localToday clock) } := by
  unfold getAvailableDates
  simp only [List.getElem?_map, List.getElem?_range h, Option.map_some']
  rw [setDate_window clock hs hr i h]
  simp only [toDateString, toLocaleWeekday, toLocaleMonth, getDate, window_day clock he i h]
  rfl

/-- C8, as stated, fails on three kinds of clock.  When the clock passes
midnight at a month end between the read of `today` and the reads of the loop,
the first entry is 2 March while today is 31 January.  At the last time value
the second entry is an invalid date.  In a time zone that skips a local day
two entries carry the same `full` key. -/
theorem availability_window_counterexample :
    (toDateString midnightClock.tz (some midnightClock.today) = "Wed Jan 31 2024" ∧
      ((getAvailableDates midnightClock).map (fun e => e.full))[0]? = some "Sat Mar 02 2024") ∧
    ((getAvailableDates limitClock).map (fun e => e.full))[1]? = some "Invalid Date" ∧
    (((getAvailableDates apiaClock).map (fun e => e.full))[10]? = some "Sat Dec 31 2011" ∧
      ((getAvailableDates apiaClock).map (fun e => e.full))[11]? = some "Sat Dec 31 2011") := by
  decide

/-- C8, amended.  When every read of the clock during the call falls on the
local day of `today`, the 21 days of the window lie in the range of time
values and the time zone skips none of them: `getAvailableDates` returns 21
entries; the `Date` of round `i` is valid and lies on the local day `i` days
after today, whose calendar date is reached from the calendar date of today by
`i` steps to the next day (through month and year ends) and is not before
today; the entry of index `i` is built from that day; each entry is the next
day of the entry before it; the first entry carries the date string of today,
and the `full` keys of the entries are pairwise distinct. -/
theorem availability_window (clock : Clock) (hs : SameDayReads clock)
    (hr : WindowInRange clock) (he : WindowDaysExist clock) :
    (getAvailableDates clock).length = 21 ∧
    (∀ i : Nat, i < 21 →
      ∃ u d : Int,
        setDate clock.tz (some (clock.loop i))
            ((getDate clock.tz (some clock.today)).map (fun n => n + (i : Int))) = some u ∧
        d = Day (LocalTime clock.tz u) ∧ localToday clock ≤ d ∧
        civil d = nextDay^[i] (civil (localToday clock)) ∧
        (getAvailableDates clock)[i]?
          = some { full := DateString d
                   dayName := weekdayName (WeekDay d)
                   dayNum := some (civil d).2.2
                   month := monthName (civil d).2.1
                   isToday := DateString d == DateString (localToday clock) }) ∧
    (∀ i : Nat, i < 20 →
      civil (localToday clock + (i + 1 : Nat)) = nextDay (civil (localToday clock + i))) ∧
    ((getAvailableDates clock).map (fun e => e.full))[0]?
      = some (toDateString clock.tz (some clock.today)) ∧
    ((getAvailableDates clock).map (fun e => e.full)).Nodup := by
  refine ⟨by simp [getAvailableDates], ?_, ?_, ?_, ?_⟩
  · intro i hi
    refine ⟨UTC clock.tz (windowTarget clock i), localToday clock + i,
      setDate_window clock hs hr i hi, (window_day clock he i hi).symm, by omega,
      civil_add_nat _ i, ?_⟩
    exact getAvailableDates_getElem clock hs hr he i hi
  · intro i _
    rw [← civil_succ]
    congr 1
    push_cast
    ring
  · rw [List.getElem?_map, getAvailableDates_getElem clock hs hr he 0 (by omega)]
    simp [toDateString, localToday]
  · have e : (getAvailableDates clock).map (fun e => e.full)
        = (List.range 21).map (fun i : Nat => DateString (localToday clock + i)) := by
      apply List.ext_getElem?
      intro i
      by_cases hi : i < 21
      · rw [List.getElem?_map, getAvailableDates_getElem clock hs hr he i hi,
          List.getElem?_map, List.getElem?_range hi]
        rfl
      · have h1 : ((getAvailableDates clock).map (fun e => e.full)).length ≤ i := by
          simp [getAvailableDates]; omega
        have h2 : ((List.range 21).map
            (fun i : Nat => DateString (localToday clock + i))).length ≤ i := by
          simp; omega
        rw [List.getElem?_eq_none h1, List.getElem?_eq_none h2]
    rw [e]
    apply List.Nodup.map_on _ (List.nodup_range 21)
    intro i hi j hj hij
    rw [List.mem_range] at hi hj
    exact (DateString_eq_iff (localToday clock) i j hi hj).1 hij

theorem availability_window_witness :
    (getAvailableDates scenarioClock).length = 21 ∧
    ((getAvailableDates scenarioClock).map (fun e => e.full))[0]? = some "Mon Jan 01 2024" ∧
    ((getAvailableDates scenarioClock).map (fun e => e.full)).Nodup :=
  ⟨(availability_window scenarioClock (by unfold SameDayReads; decide)
      (by unfold WindowInRange; decide) (by unfold WindowDaysExist; decide)).1,
    by decide,
    (availability_window scenarioClock (by unfold SameDayReads; decide)
      (by unfold WindowInRange; decide) (by unfold WindowDaysExist; decide)).2.2.2.2⟩

/-- With the reads of one local day, the window in range and no local day
skipped, the first entry has `isToday = true` and the other 20 have
`isToday = false`. -/
theorem isToday_of_same_day (clock : Clock) (hs : SameDayReads clock)
    (hr : WindowInRange clock) (he : WindowDaysExist clock) :
    (getAvailableDates clock).map (fun e => e.isToday) = true :: List.replicate 20 false := by
  apply List.ext_getElem?
  intro i
  by_cases hi : i < 21
  · rw [List.getElem?_map, getAvailableDates_getElem clock hs hr he i hi]
    have h := DateString_eq_iff (localToday clock) i 0 hi (by omega)
    simp only [Nat.cast_zero, add_zero] at h
    by_cases h0 : i = 0
    · subst h0
      simp
    · have hne : DateString (localToday clock + i) ≠ DateString (localToday clock) :=
        fun hh => h0 (h.1 hh)
      have hb : (DateString (localToday clock + i) == DateString (localToday clock)) = false := by
        simpa using hne
      simp only [Option.map_some', hb]
      obtain ⟨k, rfl⟩ := Nat.exists_eq_succ_of_ne_zero h0
      rw [List.getElem?_cons_succ, List.getElem?_replicate]
      simp
      omega
  · have h1 : ((getAvailableDates clock).map (fun e => e.isToday)).length ≤ i := by
      simp [getAvailableDates]; omega
    have h2 : (true :: List.replicate 20 false).length ≤ i := by
      simp; omega
    rw [List.getElem?_eq_none h1, List.getElem?_eq_none h2]

/-- C9 fails on the code.  When the clock passes midnight at the end of
January between the read of `today` (line 51) and the reads of the loop
(line 53), `setDate(31 + i)` is applied to dates of February and lands in
March: the first entry is 2 March 2024 and no entry has `isToday = true`. -/
theorem availability_isToday_midnight :
    toDateString midnightClock.tz (some midnightClock.today) = "Wed Jan 31 2024" ∧
    ((getAvailableDates midnightClock).map (fun e => e.full))[0]? = some "Sat Mar 02 2024" ∧
    (getAvailableDates midnightClock).map (fun e => e.isToday) = List.replicate 21 false := by
  decide

/-! ## The public profile of the barber -/

/-- C11. For every barber id and every collection `barbers`: when the document
of the active barber does not exist, `barberData` becomes the fixed
placeholder, hence is not `null`, and the booking page shows the wizard at the
step the state is in instead of the loading text; when the document exists,
`barberData` becomes exactly the stored document.  In both cases no other cell
changes. -/
theorem profile_fallback (barbers : String → Option BarberData) (st : AppState) :
    (barbers st.activeBarberId = none →
      (fetchBarberData barbers st).barberData = some fallbackBarberData ∧
      (fetchBarberData barbers st).barberData ≠ none ∧
      BarberBookingPage (fetchBarberData barbers st)
        = BookingPageView.wizard fallbackBarberData st.step ∧
      BarberBookingPage (fetchBarberData barbers st) ≠ BookingPageView.loading) ∧
    (∀ data, barbers st.activeBarberId = some data →
      (fetchBarberData barbers st).barberData = some data ∧
      BarberBookingPage (fetchBarberData barbers st) = BookingPageView.wizard data st.step) ∧
    fetchBarberData barbers st
      = { st with barberData := (fetchBarberData barbers st).barberData } ∧
    (st.view = View.clientBooking → wizardShown (fetchBarberData barbers st) = true) := by
  unfold fetchBarberData
  cases h : barbers st.activeBarberId with
  | none =>
    refine ⟨fun _ => ⟨rfl, by simp [onBarberDoc], rfl, by simp [onBarberDoc, BarberBookingPage]⟩,
      fun data hd => by simp at hd, rfl, ?_⟩
    intro hv
    simp [onBarberDoc, wizardShown, hv]
  | some data =>
    refine ⟨fun hn => by simp at hn, ?_, rfl, ?_⟩
    · intro data2 hd
      obtain rfl := Option.some.inj hd
      exact ⟨rfl, rfl⟩
    · intro hv
      simp [onBarberDoc, wizardShown, hv]

theorem profile_fallback_witness :
    BarberBookingPage initialState = BookingPageView.loading ∧
    BarberBookingPage (fetchBarberData emptyBarbers initialState)
      = BookingPageView.wizard fallbackBarberData 2 ∧
    (fetchBarberData mariaBarbers { initialState with activeBarberId := "maria" }).barberData
      = some mariaData :=
  ⟨by decide,
    ((profile_fallback emptyBarbers initialState).1 rfl).2.2.1,
    ((profile_fallback mariaBarbers { initialState with activeBarberId := "maria" }).2.1
      mariaData (by decide)).1⟩

end Barbersite
